import Mathlib

/-!
Shallow embedding of the matatu card-game engine
(src/matatu/types.py, src/matatu/engine.py, src/matatu/cpu.py).

Python integers are modelled as `Nat` (all quantities here are non-negative
counters and point totals), Python `Optional[T]` as `Option T`, Python lists
as `List`, and functions that can `raise` as `Except String`.  The two random
sources of the program (the caller-supplied `random.Random` used by
`deal_new_game`, and the global `random` module used by the reshuffle inside
`apply_action`) are modelled as explicit shuffle functions
`List Card → List Card`; an honest random shuffle always permutes its input,
which is expressed by the `shuffler` predicate where a proof needs it.

The player indices 0/1 are modelled as `Fin 2`; `engine.py` keeps
`current_player` in {0,1} via `(p + 1) % 2` and `p ^ 1`, both of which are the
function `other_player` below.
-/

namespace Matatu

/-- types.py `Suit`. -/
inductive Suit
  | clubs
  | diamonds
  | hearts
  | spades
deriving DecidableEq, Repr

/-- types.py `Rank`. -/
inductive Rank
  | ace
  | two
  | three
  | four
  | five
  | six
  | seven
  | eight
  | nine
  | ten
  | jack
  | queen
  | king
deriving DecidableEq, Repr

/-- types.py `RANK_ORDER` (the fixed total order ace < 2 < ... < king). -/
def RANK_ORDER : List Rank :=
  [.ace, .two, .three, .four, .five, .six, .seven,
   .eight, .nine, .ten, .jack, .queen, .king]

/-- Position of a rank in `RANK_ORDER` (its "rank ordinal"). -/
def rank_ordinal (r : Rank) : Nat :=
  RANK_ORDER.findIdx (fun x => decide (x = r))

/-- types.py `Rank.value`: the string value of each enum member
("A", "2", ..., "10", "J", "Q", "K").  cpu.py sorts by this STRING. -/
def rank_str : Rank → String
  | .ace => "A"
  | .two => "2"
  | .three => "3"
  | .four => "4"
  | .five => "5"
  | .six => "6"
  | .seven => "7"
  | .eight => "8"
  | .nine => "9"
  | .ten => "10"
  | .jack => "J"
  | .queen => "Q"
  | .king => "K"

/-- types.py `Card` (frozen dataclass, value equality). -/
structure Card where
  suit : Suit
  rank : Rank
deriving DecidableEq, Repr

/-- types.py `card_points`. -/
def card_points : Rank → Nat
  | .three => 3
  | .four => 4
  | .five => 5
  | .six => 6
  | .seven => 7
  | .eight => 8
  | .nine => 9
  | .ten => 10
  | .jack => 11
  | .queen => 12
  | .king => 13
  | .ace => 15
  | .two => 20

/-- types.py `ActionType`.  NOTE: the enum has exactly these four members.
There is no `DECLARE` member, although engine.py (line 245), cpu.py
(line 21) and gui.py (line 129) all refer to `ActionType.DECLARE`; in
Python evaluating that attribute raises `AttributeError`. -/
inductive ActionType
  | PLAY
  | DRAW
  | PASS
  | CUT
deriving DecidableEq, Repr

/-- types.py `Action`. -/
structure Action where
  type : ActionType
  card : Option Card
  declared_suit : Option Suit
deriving DecidableEq, Repr

/-- engine.py `PlayerState`. -/
structure PlayerState where
  hand : List Card
deriving DecidableEq, Repr

/-- engine.py `GameState`.  The Python `players` field is a list that always
has exactly two elements; it is modelled as a pair. -/
structure GameState where
  stock : List Card
  discard : List Card
  players : PlayerState × PlayerState
  current_player : Fin 2
  cut_suit : Suit
  pending_draw : Nat
  declared_suit : Option Suit
  awaiting_declare : Option (Fin 2)
  winner : Option (Fin 2)
deriving DecidableEq, Repr

/-- `players[i]` on the two-element players list. -/
def player_at (ps : PlayerState × PlayerState) (i : Fin 2) : PlayerState :=
  if i = 0 then ps.1 else ps.2

/-- `players[i] = p` on the two-element players list. -/
def set_player (ps : PlayerState × PlayerState) (i : Fin 2) (p : PlayerState) :
    PlayerState × PlayerState :=
  if i = 0 then (p, ps.2) else (ps.1, p)

/-- `(i + 1) % 2`, also written `i ^ 1` in engine.py. -/
def other_player (i : Fin 2) : Fin 2 :=
  ⟨(i.val + 1) % 2, by omega⟩

/-- The hand of player `i`. -/
def hand_of (s : GameState) (i : Fin 2) : List Card :=
  (player_at s.players i).hand

/-- engine.py `GameState.top_discard` (`self.discard[-1]`).  Python raises
`IndexError` on an empty discard, which never happens after a deal; the
default value is irrelevant junk for that impossible case. -/
def GameState.top_discard (s : GameState) : Card :=
  s.discard.getLastD ⟨Suit.clubs, Rank.ace⟩

/-- `sum(card_points(c.rank) for c in hand)`. -/
def hand_points (hand : List Card) : Nat :=
  (hand.map (fun c => card_points c.rank)).sum

/-- engine.py `generate_deck`: all 52 suit/rank combinations. -/
def generate_deck : List Card :=
  [Suit.clubs, Suit.diamonds, Suit.hearts, Suit.spades].flatMap (fun s =>
    RANK_ORDER.map (fun r => ⟨s, r⟩))

/-- engine.py `is_play_legal`. -/
def is_play_legal (s : GameState) (card : Card) : Bool :=
  if s.awaiting_declare.isSome then false
  else
    let top := s.top_discard
    if s.pending_draw > 0 ∧ top.rank = Rank.two ∧ card.rank = Rank.ace then false
    else
      let effective_suit := s.declared_suit.getD top.suit
      if card.rank = top.rank then true
      else if card.rank = Rank.ace then true
      else decide (card.suit = effective_suit)

/-- engine.py `legal_plays`. -/
def legal_plays (s : GameState) (player_idx : Fin 2) : List Card :=
  if s.winner.isSome then []
  else if s.awaiting_declare = some player_idx then []
  else
    let hand := hand_of s player_idx
    if s.pending_draw > 0 then
      hand.filter (fun c => decide (c.rank = Rank.two))
    else
      let total_points := hand_points hand
      let legal := hand.filter (fun c => is_play_legal s c)
      if total_points > 25 then
        legal.filter (fun c => !(decide (c.rank = Rank.seven) && decide (c.suit = s.cut_suit)))
      else legal

/-- Python `list.remove`: delete the first occurrence (callers guard
membership; on a missing element Python raises `ValueError`, modelled at the
call site in `apply_action`). -/
def list_remove (l : List Card) (c : Card) : List Card :=
  match l with
  | [] => []
  | x :: xs => if x = c then xs else x :: list_remove xs c

/-- The generic empty-hand win check of the PLAY branch
(engine.py lines 185-188): `winner = current_player ^ 1`, where
`current_player` has already been updated by the effect dispatch. -/
def win_check (s : GameState) (hand1 : List Card) (card : Card) : GameState :=
  if hand1.length = 0 ∧ card.rank ≠ Rank.ace then
    { s with winner := some (other_player s.current_player) }
  else s

/-- One reshuffle attempt inside the draw loop (engine.py lines 200-206):
when the stock is empty, keep the top discard and move the rest of the
discard, shuffled by the GLOBAL random module `g`, into the stock.
`discard.pop()` on an empty discard raises `IndexError`. -/
def reshuffle_step (g : List Card → List Card) (stock discard : List Card) :
    Except String (List Card × List Card) :=
  if stock.isEmpty then
    match discard.getLast? with
    | none => .error "IndexError: pop from empty list"
    | some top => .ok (g discard.dropLast, [top])
  else .ok (stock, discard)

/-- The draw loop of engine.py lines 199-209: `n` iterations, each possibly
reshuffling, breaking early when no card can be obtained.  Returns the final
stock, discard, and drawn cards. -/
def draw_loop (g : List Card → List Card) :
    Nat → List Card → List Card → List Card →
    Except String (List Card × List Card × List Card)
  | 0, stock, discard, drawn => .ok (stock, discard, drawn)
  | n + 1, stock, discard, drawn =>
    match reshuffle_step g stock discard with
    | .error e => .error e
    | .ok (s1, d1) =>
      match s1 with
      | [] => .ok ([], d1, drawn)
      | c :: rest => draw_loop g n rest d1 (drawn ++ [c])

/-- engine.py `apply_action`.  `g` is the global random module's shuffle used
by the reshuffle in the DRAW branch (engine.py line 204 `random.shuffle(tmp)`
— NOT the caller-supplied rng).  Raised exceptions are `.error`.  Note that
the `ActionType.DECLARE` comparison at engine.py line 245 is dead code: the
match below is exhaustive over the four actual members of `ActionType`, so
the declare branch (lines 245-259) and the final `raise ValueError("Unknown
action")` are unreachable; the declare branch is modelled separately as
`apply_declare`. -/
def apply_action (g : List Card → List Card) (s : GameState) (a : Action) :
    Except String GameState :=
  if s.winner.isSome then .ok s
  else
    match a.type with
    | .PLAY =>
      match a.card with
      | none => .error "AssertionError"
      | some card =>
        let hand := hand_of s s.current_player
        if card ∈ hand then
          let hand1 := list_remove hand card
          let s1 : GameState :=
            { s with players := set_player s.players s.current_player ⟨hand1⟩,
                     declared_suit := none,
                     discard := s.discard ++ [card] }
          if card.rank = Rank.two then
            .ok (win_check
              { s1 with pending_draw := s1.pending_draw + 2,
                        current_player := other_player s1.current_player }
              hand1 card)
          else if card.rank = Rank.eight then
            .ok (win_check s1 hand1 card)
          else if card.rank = Rank.jack then
            .ok (win_check s1 hand1 card)
          else if card.rank = Rank.ace then
            .ok { s1 with awaiting_declare := some s1.current_player }
          else if card.rank = Rank.seven ∧ card.suit = s.cut_suit then
            let total := hand_points hand1
            if total ≤ 25 then
              let b := hand_points (hand_of s1 (other_player s1.current_player))
              .ok { s1 with winner := some (if total < b then s1.current_player
                                            else other_player s1.current_player) }
            else
              .ok (win_check
                { s1 with current_player := other_player s1.current_player }
                hand1 card)
          else
            .ok (win_check
              { s1 with current_player := other_player s1.current_player }
              hand1 card)
        else .error "ValueError: list.remove(x): x not in list"
    | .DRAW =>
      if s.awaiting_declare.isSome then
        .error "Must declare suit before other actions"
      else
        let to_draw := if s.pending_draw > 0 then s.pending_draw else 1
        match draw_loop g to_draw s.stock s.discard [] with
        | .error e => .error e
        | .ok (stock1, discard1, drawn) =>
          let hand := hand_of s s.current_player
          .ok { s with pending_draw := 0,
                       stock := stock1,
                       discard := discard1,
                       players := set_player s.players s.current_player ⟨hand ++ drawn⟩,
                       current_player := other_player s.current_player }
    | .PASS =>
      if s.awaiting_declare.isSome then
        .error "Must declare suit before passing"
      else
        .ok { s with current_player := other_player s.current_player }
    | .CUT =>
      if s.awaiting_declare.isSome then
        .error "Must declare suit before cutting"
      else
        let hand := hand_of s s.current_player
        let total := hand_points hand
        match hand.find? (fun c => decide (c.rank = Rank.seven) && decide (c.suit = s.cut_suit)) with
        | none => .error "Invalid cut"
        | some cut_card =>
          if total > 25 then .error "Invalid cut"
          else
            let hand1 := list_remove hand cut_card
            let a1 := total - card_points cut_card.rank
            let b := hand_points (hand_of s (other_player s.current_player))
            .ok { s with players := set_player s.players s.current_player ⟨hand1⟩,
                         discard := s.discard ++ [cut_card],
                         winner := some (if a1 < b then s.current_player
                                         else other_player s.current_player) }

/-- engine.py lines 245-259: the DECLARE branch of `apply_action`, as written
in the source.  It is unreachable through `apply_action` because types.py's
`ActionType` has no `DECLARE` member (see `ActionType`); it is embedded here
on its own so its behaviour can be stated.  The `winner.isSome` guard is the
one at the top of `apply_action` (line 136). -/
def apply_declare (s : GameState) (declared : Option Suit) :
    Except String GameState :=
  if s.winner.isSome then .ok s
  else if s.awaiting_declare ≠ some s.current_player then
    .error "No declaration pending"
  else
    match declared with
    | none => .error "Declared suit required"
    | some suit =>
      let hand := hand_of s s.current_player
      let s1 : GameState := { s with declared_suit := some suit, awaiting_declare := none }
      if hand.length = 0 then .ok { s1 with winner := some s1.current_player }
      else .ok { s1 with current_player := other_player s1.current_player }

/-- engine.py `deal_new_game`, hand-dealing loop: `n` rounds, each appending
one card to player 0's hand and then one to player 1's hand.  Returns both
hands and the remaining deck (the stock). -/
def deal_hands : Nat → List Card →
    Except String (List Card × List Card × List Card)
  | 0, deck => .ok ([], [], deck)
  | n + 1, a :: b :: rest =>
    match deal_hands n rest with
    | .ok (h0, h1, st) => .ok (a :: h0, b :: h1, st)
    | .error e => .error e
  | _ + 1, _ => .error "IndexError: pop from empty list"

/-- engine.py `deal_new_game`.  `shuffle` is the caller-supplied rng's
shuffle (`rng.shuffle(deck)`).  The first card is burned (only its suit is
kept as the cut suit), the second starts the discard, 7 cards are dealt to
each player alternately (player 0 first), the rest is the stock. -/
def deal_new_game (shuffle : List Card → List Card) : Except String GameState :=
  match shuffle generate_deck with
  | cut_card :: first_discard :: rest =>
    match deal_hands 7 rest with
    | .ok (h0, h1, stock) =>
      .ok { stock := stock,
            discard := [first_discard],
            players := (⟨h0⟩, ⟨h1⟩),
            current_player := 0,
            cut_suit := cut_card.suit,
            pending_draw := 0,
            declared_suit := none,
            awaiting_declare := none,
            winner := none }
    | .error e => .error e
  | _ => .error "IndexError: pop from empty list"

/-- Python string comparison: lexicographic on code points. -/
def chars_le : List Char → List Char → Bool
  | [], _ => true
  | _ :: _, [] => false
  | a :: as, b :: bs =>
    if a.toNat < b.toNat then true
    else if b.toNat < a.toNat then false
    else chars_le as bs

/-- `a <= b` on Python strings. -/
def str_le (a b : String) : Bool :=
  chars_le a.data b.data

/-- The sort key relation of cpu.py line 53:
`sorted(plays, key=lambda c: (c.rank.value))` compares the STRING values of
the ranks lexicographically. -/
def cpu_key_le (c d : Card) : Prop :=
  str_le (rank_str c.rank) (rank_str d.rank) = true

instance : DecidableRel cpu_key_le := fun c d =>
  inferInstanceAs (Decidable (str_le (rank_str c.rank) (rank_str d.rank) = true))

/-- cpu.py lines 40-50: scan the special ranks 2, 8, J, A in order and return
the first legal card of that rank; the inner `continue` skips a seven of the
cut suit (dead code, since the scanned ranks never include seven). -/
def find_special (s : GameState) (plays : List Card) : List Rank → Option Card
  | [] => none
  | r :: rs =>
    match plays.find? (fun c =>
        decide (c.rank = r) &&
        !(decide (c.rank = Rank.seven) && decide (c.suit = s.cut_suit))) with
    | some c => some c
    | none => find_special s plays rs

/-- cpu.py lines 52-54: the final fallback.  Python's `sorted` is a stable
sort by the rank's string value; `List.insertionSort` with `cpu_key_le` is
the same stable sort.  `plays_sorted[-1]` on an empty list would raise
`IndexError` (unreachable: the empty case returned DRAW earlier). -/
def cpu_fallback (plays : List Card) : Except String Action :=
  let plays_sorted := List.insertionSort cpu_key_le plays
  match plays_sorted.getLast? with
  | some c => .ok ⟨.PLAY, some c, none⟩
  | none => .error "IndexError: list index out of range"

/-- cpu.py lines 39-54: the specials scan followed by the fallback. -/
def cpu_specials_or_fallback (s : GameState) (plays : List Card) :
    Except String Action :=
  match find_special s plays [Rank.two, Rank.eight, Rank.jack, Rank.ace] with
  | some c => .ok ⟨.PLAY, some c, none⟩
  | none => cpu_fallback plays

/-- cpu.py `cpu_choose_action`.  The unused `rng` parameter of the source is
dropped.  When a declaration is pending for the acting player, the source
executes `Action(ActionType.DECLARE, declared_suit=suit)` (line 21); since
types.py's `ActionType` has no `DECLARE` member this raises
`AttributeError`, modelled as `.error`. -/
def cpu_choose_action (s : GameState) : Except String Action :=
  let idx := s.current_player
  if s.awaiting_declare = some idx then
    .error "AttributeError: type object ActionType has no attribute DECLARE"
  else
    let plays := legal_plays s idx
    let hand := hand_of s idx
    let total_points := hand_points hand
    let has_cut_seven := hand.any (fun c =>
      decide (c.rank = Rank.seven) && decide (c.suit = s.cut_suit))
    if has_cut_seven ∧ total_points ≤ 25 then .ok ⟨.CUT, none, none⟩
    else if plays = [] then .ok ⟨.DRAW, none, none⟩
    else
      match plays.filter (fun c => decide (c.rank = Rank.two)) with
      | t :: _ =>
        if s.pending_draw > 0 then .ok ⟨.PLAY, some t, none⟩
        else cpu_specials_or_fallback s plays
      | [] => cpu_specials_or_fallback s plays

/-- A PLAY action for a card (`Action(ActionType.PLAY, card=c)`). -/
def play_act (c : Card) : Action := ⟨.PLAY, some c, none⟩

/-- `Action(ActionType.DRAW)`. -/
def draw_act : Action := ⟨.DRAW, none, none⟩

/-- `Action(ActionType.CUT)`. -/
def cut_act : Action := ⟨.CUT, none, none⟩

/-- Apply a sequence of actions, stopping at the first raised exception.
`g` is the global random module used by reshuffles. -/
def run_actions (g : List Card → List Card) (s : GameState) :
    List Action → Except String GameState
  | [] => .ok s
  | a :: rest =>
    match apply_action g s a with
    | .ok s1 => run_actions g s1 rest
    | .error e => .error e

/-- One full run: deal with the caller-supplied rng `dshuffle`, then apply
the actions, with `g` standing for the global random module's state. -/
def run_game (dshuffle g : List Card → List Card) (acts : List Action) :
    Except String GameState :=
  match deal_new_game dshuffle with
  | .ok s => run_actions g s acts
  | .error e => .error e

/-- An honest random shuffle: it permutes its input.  Both Python shuffles
(`rng.shuffle` and `random.shuffle`) have this property. -/
def shuffler (g : List Card → List Card) : Prop :=
  ∀ l, List.Perm (g l) l

/-- All cards in play: stock, discard, and the two hands. -/
def in_play (s : GameState) : List Card :=
  s.stock ++ s.discard ++ hand_of s 0 ++ hand_of s 1

/-- The action is legal for the engine's caller contract: a PLAY must name a
card from the acting player's current legal plays (other action kinds are
validated by `apply_action` itself). -/
def play_ok (s : GameState) (a : Action) : Prop :=
  a.type = ActionType.PLAY →
    ∃ c, a.card = some c ∧ c ∈ legal_plays s s.current_player

/-- States reachable from a fresh deal by legal, successfully applied
actions.  Every shuffle involved (the caller rng at deal time, the global
random module at each step's reshuffle) is an honest permutation. -/
inductive Reachable : GameState → Prop
  | deal (ds : List Card → List Card) (s : GameState) :
      shuffler ds → deal_new_game ds = .ok s → Reachable s
  | step (g : List Card → List Card) (s s' : GameState) (a : Action) :
      shuffler g → Reachable s → play_ok s a →
      apply_action g s a = .ok s' → Reachable s'

/-- Junk default used to strip `Except`/`Option` wrappers at concrete,
always-successful call sites. -/
def junk_state : GameState :=
  { stock := [], discard := [], players := (⟨[]⟩, ⟨[]⟩), current_player := 0,
    cut_suit := .clubs, pending_draw := 0, declared_suit := none,
    awaiting_declare := none, winner := none }

/-- C1: a pending declaration for player 0, whose hand is not empty. -/
def c1_pending_state : GameState :=
  { stock := [], discard := [⟨.hearts, .ace⟩],
    players := (⟨[⟨.spades, .king⟩]⟩, ⟨[⟨.spades, .four⟩]⟩),
    current_player := 0, cut_suit := .diamonds, pending_draw := 0,
    declared_suit := none, awaiting_declare := some 0, winner := none }

/-- C1: a pending declaration for player 0, whose hand is empty (the Ace
that triggered the declaration was their last card). -/
def c1_last_card_state : GameState :=
  { stock := [], discard := [⟨.spades, .ace⟩],
    players := (⟨[]⟩, ⟨[⟨.spades, .four⟩]⟩),
    current_player := 0, cut_suit := .diamonds, pending_draw := 0,
    declared_suit := none, awaiting_declare := some 0, winner := none }

/-- C1: no declaration pending. -/
def c1_no_pending_state : GameState :=
  { stock := [], discard := [⟨.hearts, .five⟩],
    players := (⟨[⟨.spades, .king⟩]⟩, ⟨[⟨.spades, .four⟩]⟩),
    current_player := 0, cut_suit := .diamonds, pending_draw := 0,
    declared_suit := none, awaiting_declare := none, winner := none }

/-- C2: player 0 holds only the Jack of clubs; the Jack matches the top
discard by suit, so it is a legal ordinary-looking play. -/
def c2_state : GameState :=
  { stock := [⟨.hearts, .five⟩], discard := [⟨.clubs, .three⟩],
    players := (⟨[⟨.clubs, .jack⟩]⟩, ⟨[⟨.hearts, .nine⟩, ⟨.spades, .four⟩]⟩),
    current_player := 0, cut_suit := .diamonds, pending_draw := 0,
    declared_suit := none, awaiting_declare := none, winner := none }

/-- C3: two legal plays (growing the discard to three cards) followed by 37
draws; the 37th draw finds the stock empty and reshuffles the two recycled
discard cards with the GLOBAL random module. -/
def c3_acts : List Action :=
  [play_act ⟨.clubs, .three⟩, play_act ⟨.clubs, .four⟩] ++ List.replicate 37 draw_act

/-- C5 witness: a pending-draw state where player 0 holds one Two. -/
def c5w_state : GameState :=
  { stock := [⟨.hearts, .five⟩], discard := [⟨.clubs, .two⟩],
    players := (⟨[⟨.spades, .two⟩, ⟨.hearts, .nine⟩, ⟨.clubs, .ace⟩]⟩, ⟨[⟨.spades, .four⟩]⟩),
    current_player := 0, cut_suit := .hearts, pending_draw := 2,
    declared_suit := none, awaiting_declare := none, winner := none }

/-- C6 counterexample: the hand totals 32 (> 25) points and holds the Seven
of the cut suit, but `winner` is already set, so `apply(Cut)` returns the
state unchanged instead of failing. -/
def c6_cex_state : GameState :=
  { stock := [], discard := [⟨.hearts, .three⟩],
    players := (⟨[⟨.hearts, .seven⟩, ⟨.hearts, .king⟩, ⟨.hearts, .queen⟩]⟩, ⟨[⟨.spades, .four⟩]⟩),
    current_player := 0, cut_suit := .hearts, pending_draw := 0,
    declared_suit := none, awaiting_declare := none, winner := some 0 }

/-- C6 witness: as `c6_cex_state` but with no winner yet. -/
def c6w_state : GameState :=
  { stock := [], discard := [⟨.hearts, .three⟩],
    players := (⟨[⟨.hearts, .seven⟩, ⟨.hearts, .king⟩, ⟨.hearts, .queen⟩]⟩, ⟨[⟨.spades, .four⟩]⟩),
    current_player := 0, cut_suit := .hearts, pending_draw := 0,
    declared_suit := none, awaiting_declare := none, winner := none }

/-- C7: player 0 must declare; player 1 holds an Ace to play right after. -/
def c7_s0 : GameState :=
  { stock := [], discard := [⟨.hearts, .five⟩],
    players := (⟨[⟨.spades, .king⟩]⟩, ⟨[⟨.clubs, .ace⟩]⟩),
    current_player := 0, cut_suit := .diamonds, pending_draw := 0,
    declared_suit := none, awaiting_declare := some 0, winner := none }

/-- C7 witness: a declared suit is in force and an ordinary play follows. -/
def c7w_play_state : GameState :=
  { stock := [], discard := [⟨.hearts, .five⟩],
    players := (⟨[⟨.hearts, .nine⟩, ⟨.spades, .four⟩]⟩, ⟨[⟨.diamonds, .eight⟩]⟩),
    current_player := 0, cut_suit := .clubs, pending_draw := 0,
    declared_suit := some .spades, awaiting_declare := none, winner := none }

/-- C7 witness: a declared suit is in force and a PASS follows. -/
def c7w_pass_state : GameState :=
  { stock := [], discard := [⟨.hearts, .five⟩],
    players := (⟨[⟨.hearts, .nine⟩]⟩, ⟨[⟨.diamonds, .eight⟩]⟩),
    current_player := 0, cut_suit := .clubs, pending_draw := 0,
    declared_suit := some .spades, awaiting_declare := none, winner := none }

/-- C7 witness: result of the ordinary play from `c7w_play_state`. -/
def c7w_play_res : GameState :=
  (apply_action id c7w_play_state (play_act ⟨.hearts, .nine⟩)).toOption.getD junk_state

/-- C7 witness: result of Declare(hearts) from `c7_s0`. -/
def c7w_declare_res : GameState :=
  (apply_declare c7_s0 (some .hearts)).toOption.getD junk_state

/-- C7 witness: result of a PASS from `c7w_pass_state`. -/
def c7w_pass_res : GameState :=
  (apply_action id c7w_pass_state ⟨.PASS, none, none⟩).toOption.getD junk_state

/-- C8: player 0 holds the King and Queen of spades, both legal on the Three
of spades; no special ranks, no penalty, no cut seven. -/
def c8_state : GameState :=
  { stock := [⟨.hearts, .five⟩], discard := [⟨.spades, .three⟩],
    players := (⟨[⟨.spades, .king⟩, ⟨.spades, .queen⟩]⟩, ⟨[⟨.hearts, .nine⟩]⟩),
    current_player := 0, cut_suit := .hearts, pending_draw := 0,
    declared_suit := none, awaiting_declare := none, winner := none }

/-- C9: the acting player (the CPU side) must declare after its Ace. -/
def c9_state : GameState :=
  { stock := [], discard := [⟨.clubs, .ace⟩],
    players := (⟨[⟨.hearts, .nine⟩]⟩, ⟨[⟨.spades, .four⟩]⟩),
    current_player := 0, cut_suit := .clubs, pending_draw := 0,
    declared_suit := none, awaiting_declare := some 0, winner := none }

/-- C10 witness: pendingDraw = 4 > 0, yet the cut is available (12 points,
holds the Seven of diamonds, the cut suit). -/
def c10w_state : GameState :=
  { stock := [], discard := [⟨.clubs, .nine⟩],
    players := (⟨[⟨.diamonds, .seven⟩, ⟨.clubs, .five⟩]⟩, ⟨[⟨.hearts, .nine⟩]⟩),
    current_player := 0, cut_suit := .diamonds, pending_draw := 4,
    declared_suit := none, awaiting_declare := none, winner := none }

/-- C4 witness: the state dealt by the identity shuffle. -/
def deal_id_state : GameState :=
  (deal_new_game id).toOption.getD junk_state

/-- C1.  The claim describes the Declare transition; engine.py's declare
branch (lines 245-259, embedded as `apply_declare`) does behave exactly as
claimed — it sets `declared_suit`, clears `awaiting_declare`, makes the
declarer the winner on an empty hand, otherwise passes the turn, and fails
with the invalid-operation signal when no declaration is pending or no suit
is supplied.  But the first conjunct shows the bug: types.py's `ActionType`
has only PLAY, DRAW, PASS and CUT, so no Declare action can ever be
constructed or dispatched (`ActionType.DECLARE` raises `AttributeError` in
engine.py line 245, cpu.py line 21 and gui.py line 129), and the branch is
dead code. -/
theorem c1_declare_branch_unreachable :
    (∀ t : ActionType, t = ActionType.PLAY ∨ t = ActionType.DRAW ∨
        t = ActionType.PASS ∨ t = ActionType.CUT)
    ∧ (apply_declare c1_pending_state (some Suit.hearts)).toOption.map
        (fun s => (s.declared_suit, s.awaiting_declare, s.winner, s.current_player))
      = some (some Suit.hearts, none, none, 1)
    ∧ (apply_declare c1_last_card_state (some Suit.spades)).toOption.map
        (fun s => (s.declared_suit, s.awaiting_declare, s.winner))
      = some (some Suit.spades, none, some 0)
    ∧ apply_declare c1_no_pending_state (some Suit.hearts)
      = .error "No declaration pending"
    ∧ apply_declare c1_pending_state none = .error "Declared suit required" :=
  ⟨fun t => by cases t <;> decide, by decide, by decide, by rfl, by rfl⟩

/-- C2.  Player 0 plays the Jack of clubs as their last card: the hand is
empty, no Ace and no auto-cut is involved, yet the code sets player 1 — the
OPPONENT — as winner (engine.py line 188 computes `current_player ^ 1`, but
a Jack grants an extra turn, so `current_player` is still the actor). -/
theorem c2_jack_empty_hand_sets_opponent_as_winner :
    (apply_action id c2_state (play_act ⟨.clubs, .jack⟩)).toOption.map
      (fun s => (s.winner, s.current_player, hand_of s 0))
      = some (some 1, 0, []) := by decide

/-- C3.  Two runs from the same deal (same caller rng, modelled by the same
deal-time shuffle `id`) over the same action sequence diverge when the
global random module — which engine.py line 204 uses for the reshuffle, and
which the seed does not fix — is in different states (`id` vs
`List.reverse`).  This refutes the two-run determinism equality. -/
theorem c3_reshuffle_uses_global_random :
    (run_game id id c3_acts).toOption.map (fun s => hand_of s 0)
      ≠ (run_game id List.reverse c3_acts).toOption.map (fun s => hand_of s 0) := by
  decide

/-- C9.  When `awaiting_declare` equals the acting player, cpu.py line 21
executes `Action(ActionType.DECLARE, ...)`; `ActionType` has no `DECLARE`
member, so `cpu_choose_action` raises `AttributeError` instead of returning
a Declare action — it does NOT "never fail". -/
theorem c9_cpu_choose_action_raises_on_pending_declare :
    cpu_choose_action c9_state
      = .error "AttributeError: type object ActionType has no attribute DECLARE" := by
  rfl

/-- C6 counterexample.  In this state the current player's hand totals 32
(> 25) points, yet applying Cut does not fail with the invalid-operation
signal: `winner` is already set, so `apply_action` returns the state
unchanged with no error.  The claim quantifies over every state with points
above the threshold, so it is false as stated. -/
theorem c6_counterexample :
    25 < hand_points (hand_of c6_cex_state c6_cex_state.current_player)
    ∧ apply_action id c6_cex_state cut_act = .ok c6_cex_state := by
  constructor
  · decide
  · rfl

/-- C7 counterexample.  After a successful Declare(hearts) the declared suit
is hearts, but the very next action — player 1 playing an ACE (not a
non-Ace play) — already clears `declared_suit` to `none` (engine.py line 147
clears it on every play).  So the declared suit does not persist "until the
next non-Ace Play" as claimed. -/
theorem c7_counterexample :
    (apply_declare c7_s0 (some Suit.hearts)).toOption.map (fun s => s.declared_suit)
      = some (some Suit.hearts)
    ∧ ((apply_declare c7_s0 (some Suit.hearts)).toOption.bind (fun s1 =>
        (apply_action id s1 (play_act ⟨.clubs, .ace⟩)).toOption)).map
        (fun s => s.declared_suit)
      = some none
    ∧ (play_act (⟨.clubs, .ace⟩ : Card)).card.map Card.rank = some Rank.ace := by
  refine ⟨by decide, by decide, by decide⟩

/-- C8 counterexample.  With legal plays {King of spades, Queen of spades}
and the fallback reached, the code plays the QUEEN: cpu.py line 53 sorts by
`c.rank.value`, a STRING, and "Q" > "K" lexicographically — although the
King has the strictly higher rank ordinal and the claim says the King is
played. -/
theorem c8_counterexample :
    cpu_choose_action c8_state = .ok (play_act ⟨.spades, .queen⟩)
    ∧ (⟨.spades, .king⟩ : Card) ∈ legal_plays c8_state c8_state.current_player
    ∧ rank_ordinal Rank.queen < rank_ordinal Rank.king := by
  refine ⟨by rfl, by decide, by decide⟩

/-- C5.  With a penalty pending (and the player not blocked by a
declaration, the hand not over), the legal plays are exactly the Twos of
the player's hand, in hand order; hence every legal card is a Two, and a
hand without Twos has no legal play. -/
theorem c5_pending_draw_only_twos (s : GameState) (p : Fin 2)
    (hw : s.winner = none) (ha : s.awaiting_declare ≠ some p)
    (hp : 0 < s.pending_draw) :
    legal_plays s p = (hand_of s p).filter (fun c => decide (c.rank = Rank.two))
    ∧ (∀ c ∈ legal_plays s p, c.rank = Rank.two)
    ∧ ((∀ c ∈ hand_of s p, c.rank ≠ Rank.two) → legal_plays s p = []) := by
  have h1 : legal_plays s p = (hand_of s p).filter (fun c => decide (c.rank = Rank.two)) := by
    unfold legal_plays
    rw [hw]
    simp only [Option.isSome_none, Bool.false_eq_true, if_false, if_neg ha, if_pos hp]
  refine ⟨h1, ?_, ?_⟩
  · intro c hc
    rw [h1] at hc
    simpa using (List.mem_filter.mp hc).2
  · intro hnone
    rw [h1, List.filter_eq_nil_iff]
    intro c hc
    simpa using hnone c hc

/-- C5 witness at `c5w_state` (player 0, pendingDraw = 2, one Two in hand). -/
theorem c5_witness :
    legal_plays c5w_state 0 = [⟨.spades, .two⟩] := by
  have h := c5_pending_draw_only_twos c5w_state 0 (by decide) (by decide) (by decide)
  rw [h.1]
  decide

/-- C10.  Cut never consults `pendingDraw`: whenever the hand is not over,
no declaration is pending, the current player holds the Seven of the cut
suit and their hand totals at most 25 points, Cut succeeds, sets a winner,
and leaves `pendingDraw` exactly as it was — for every value of
`pendingDraw`, including positive ones (see the witness). -/
theorem c10_cut_ignores_pending_draw (g : List Card → List Card) (s : GameState)
    (hw : s.winner = none) (ha : s.awaiting_declare = none)
    (hc : (⟨s.cut_suit, Rank.seven⟩ : Card) ∈ hand_of s s.current_player)
    (hp : hand_points (hand_of s s.current_player) ≤ 25) :
    (apply_action g s cut_act).toOption.map
      (fun t => (t.winner.isSome, t.pending_draw))
      = some (true, s.pending_draw) := by
  have hfind : ∃ c, (hand_of s s.current_player).find?
      (fun c => decide (c.rank = Rank.seven) && decide (c.suit = s.cut_suit)) = some c := by
    rw [← Option.isSome_iff_exists, List.find?_isSome]
    exact ⟨_, hc, by simp⟩
  obtain ⟨c, hfind⟩ := hfind
  unfold apply_action cut_act
  rw [hw]
  simp only [Option.isSome_none, Bool.false_eq_true, if_false, ha, hfind,
    if_neg (Nat.not_lt.mpr hp)]
  rfl

/-- C10 witness: `c10w_state` has `pendingDraw = 4 > 0` and the cut still
succeeds with the penalty counter untouched. -/
theorem c10_witness :
    0 < c10w_state.pending_draw
    ∧ (apply_action id c10w_state cut_act).toOption.map
        (fun t => (t.winner.isSome, t.pending_draw))
      = some (true, 4) :=
  ⟨by decide,
   c10_cut_ignores_pending_draw id c10w_state (by decide) (by decide)
     (by decide) (by decide)⟩

/-- C6 (amended: the state must not already have a winner — see
`c6_counterexample` for why; `apply` on a finished hand returns the state
unchanged without failing).  When the current player's hand exceeds 25
points, the Seven of the cut suit is never among their legal plays, and
applying Cut fails with the invalid-operation signal (no successor state is
produced; the functional embedding makes "state unchanged" automatic, and
in engine.py the `raise` fires before any mutation). -/
theorem c6_over_threshold_no_seven_no_cut (g : List Card → List Card)
    (s : GameState) (hw : s.winner = none)
    (hpts : 25 < hand_points (hand_of s s.current_player)) :
    (⟨s.cut_suit, Rank.seven⟩ : Card) ∉ legal_plays s s.current_player
    ∧ (apply_action g s cut_act).toOption = none := by
  constructor
  · intro hmem
    unfold legal_plays at hmem
    rw [hw] at hmem
    simp only [Option.isSome_none, Bool.false_eq_true, if_false] at hmem
    repeat' split at hmem
    all_goals simp at hmem
  · unfold apply_action cut_act
    rw [hw]
    simp only [Option.isSome_none, Bool.false_eq_true, if_false]
    cases haw : s.awaiting_declare.isSome
    · simp only [Bool.false_eq_true, if_false]
      cases hfind : (hand_of s s.current_player).find?
          (fun c => decide (c.rank = Rank.seven) && decide (c.suit = s.cut_suit))
      · rfl
      · simp only [if_pos hpts]
        rfl
    · rfl

/-- C6 witness at `c6w_state` (32 points, holds the Seven of hearts, the
cut suit; no winner yet). -/
theorem c6_witness :
    (⟨c6w_state.cut_suit, Rank.seven⟩ : Card) ∉ legal_plays c6w_state c6w_state.current_player
    ∧ (apply_action id c6w_state cut_act).toOption = none :=
  c6_over_threshold_no_seven_no_cut id c6w_state (by decide) (by decide)

/-- The empty-hand win check only ever touches the `winner` field. -/
theorem win_check_declared_suit (s : GameState) (hand1 : List Card) (card : Card) :
    (win_check s hand1 card).declared_suit = s.declared_suit := by
  unfold win_check
  split <;> rfl

/-- C7 (amended: `declared_suit` is cleared by EVERY successful Play — an
Ace play included, engine.py line 147 — not only by non-Ace plays; it is set
by a successful Declare and untouched by Draw, Pass and Cut.  Hence after a
successful Declare the declared suit persists exactly until the next Play
of any card; see `c7_counterexample` for the Ace play that violates the
claim as stated). -/
theorem c7_declared_suit_dynamics :
    (∀ (g : List Card → List Card) (s : GameState) (a : Action) (c : Card)
        (s' : GameState), apply_action g s a = .ok s' → a.type = ActionType.PLAY →
        a.card = some c → s.winner = none → s'.declared_suit = none)
    ∧ (∀ (s : GameState) (suit : Suit) (s' : GameState),
        apply_declare s (some suit) = .ok s' → s.winner = none →
        s'.declared_suit = some suit)
    ∧ (∀ (g : List Card → List Card) (s : GameState) (a : Action) (s' : GameState),
        apply_action g s a = .ok s' → a.type ≠ ActionType.PLAY →
        s'.declared_suit = s.declared_suit) := by
  refine ⟨?_, ?_, ?_⟩
  · intro g s a c s' h ht hc hw
    obtain ⟨t, oc, ds⟩ := a
    simp only at ht hc
    subst ht
    subst hc
    unfold apply_action at h
    rw [hw] at h
    simp only [Option.isSome_none, Bool.false_eq_true, if_false] at h
    split at h
    · repeat' split at h
      all_goals
        injection h with h
        subst h
        simp [win_check_declared_suit]
    · cases h
  · intro s suit s' h hw
    unfold apply_declare at h
    rw [hw] at h
    simp only [Option.isSome_none, Bool.false_eq_true, if_false] at h
    split at h
    · cases h
    · split at h
      all_goals
        injection h with h
        subst h
        rfl
  · intro g s a s' h ht
    unfold apply_action at h
    split at h
    · injection h with h
      subst h
      rfl
    · obtain ⟨t, oc, ds⟩ := a
      simp only at ht
      cases t
      · exact absurd rfl ht
      all_goals
        simp only at h
        repeat' split at h
        all_goals
          first
          | (injection h with h
             subst h
             rfl)
          | cases h

/-- C7 witness: an ordinary play from a declared-spades state clears the
suit; Declare(hearts) from `c7_s0` sets hearts; a Pass from a
declared-spades state leaves it untouched. -/
theorem c7_witness :
    c7w_play_res.declared_suit = none
    ∧ c7w_declare_res.declared_suit = some Suit.hearts
    ∧ c7w_pass_res.declared_suit = c7w_pass_state.declared_suit :=
  ⟨c7_declared_suit_dynamics.1 id c7w_play_state (play_act ⟨.hearts, .nine⟩)
      ⟨.hearts, .nine⟩ c7w_play_res (by rfl) (by rfl) (by rfl) (by rfl),
   c7_declared_suit_dynamics.2.1 c7_s0 Suit.hearts c7w_declare_res (by rfl) (by rfl),
   c7_declared_suit_dynamics.2.2 id c7w_pass_state ⟨.PASS, none, none⟩
      c7w_pass_res (by rfl) (by decide)⟩

/-- Code-point lexicographic comparison is reflexive. -/
theorem chars_le_refl : ∀ x : List Char, chars_le x x = true := by
  intro x
  induction x with
  | nil => rfl
  | cons a as ih => simp [chars_le, ih]

/-- Code-point lexicographic comparison is total. -/
theorem chars_le_total : ∀ x y : List Char, chars_le x y = true ∨ chars_le y x = true := by
  intro x
  induction x with
  | nil => intro y; left; rfl
  | cons a as ih =>
    intro y
    cases y with
    | nil => right; rfl
    | cons b bs =>
      by_cases h1 : a.toNat < b.toNat
      · left; simp [chars_le, h1]
      · by_cases h2 : b.toNat < a.toNat
        · right; simp [chars_le, h1, h2]
        · rcases ih bs with h | h
          · left; simp [chars_le, h1, h2, h]
          · right; simp [chars_le, h1, h2, h]

/-- Code-point lexicographic comparison is transitive. -/
theorem chars_le_trans : ∀ x y z : List Char,
    chars_le x y = true → chars_le y z = true → chars_le x z = true := by
  intro x
  induction x with
  | nil => intro y z _ _; rfl
  | cons a as ih =>
    intro y z hxy hyz
    cases y with
    | nil => simp [chars_le] at hxy
    | cons b bs =>
      cases z with
      | nil => simp [chars_le] at hyz
      | cons c cs =>
        simp only [chars_le] at hxy hyz ⊢
        by_cases h1 : a.toNat < b.toNat
        · by_cases h2 : b.toNat < c.toNat
          · rw [if_pos (by omega)]
          · by_cases h3 : c.toNat < b.toNat
            · rw [if_neg h2, if_pos h3] at hyz; cases hyz
            · rw [if_pos (by omega)]
        · by_cases h4 : b.toNat < a.toNat
          · rw [if_neg h1, if_pos h4] at hxy; cases hxy
          · by_cases h2 : b.toNat < c.toNat
            · rw [if_pos (by omega)]
            · by_cases h3 : c.toNat < b.toNat
              · rw [if_neg h2, if_pos h3] at hyz; cases hyz
              · rw [if_neg h1, if_neg h4] at hxy
                rw [if_neg h2, if_neg h3] at hyz
                rw [if_neg (by omega), if_neg (by omega)]
                exact ih bs cs hxy hyz

/-- The CPU sort key relation is reflexive. -/
theorem cpu_key_le_refl (c : Card) : cpu_key_le c c :=
  chars_le_refl _

/-- The CPU sort key relation is total. -/
theorem cpu_key_le_total : ∀ c d : Card, cpu_key_le c d ∨ cpu_key_le d c :=
  fun _ _ => chars_le_total _ _

/-- The CPU sort key relation is transitive. -/
theorem cpu_key_le_trans : ∀ c d e : Card, cpu_key_le c d → cpu_key_le d e → cpu_key_le c e :=
  fun _ _ _ => chars_le_trans _ _ _

/-- The last element of a `cpu_key_le`-sorted list is a greatest element. -/
theorem sorted_getLast?_greatest (l : List Card) (c : Card)
    (hs : List.Sorted cpu_key_le l) (hl : l.getLast? = some c) :
    ∀ x ∈ l, cpu_key_le x c := by
  induction l with
  | nil => cases hl
  | cons a t ih =>
    intro x hx
    cases t with
    | nil =>
      simp only [List.getLast?_singleton, Option.some.injEq] at hl
      subst hl
      rcases List.mem_singleton.mp hx with rfl
      exact cpu_key_le_refl x
    | cons b t' =>
      rw [List.getLast?_cons_cons] at hl
      have hsc := List.sorted_cons.mp hs
      have hcmem : c ∈ b :: t' := by
        obtain ⟨hne, rfl⟩ := List.mem_getLast?_eq_getLast (l := b :: t') hl
        exact List.getLast_mem hne
      rcases List.mem_cons.mp hx with rfl | hx
      · exact hsc.1 c hcmem
      · exact ih hsc.2 hl x hx

/-- C8 (amended: the fallback plays a legal card whose rank SYMBOL STRING is
lexicographically greatest — cpu.py line 53 sorts by `c.rank.value`, a
string, so the order is "10" < "2" < ... < "9" < "A" < "J" < "K" < "Q", not
the rank ordinal; from {Queen, King} the Queen is played, see
`c8_counterexample`).  Under the fallback conditions the chosen card is a
legal play and every legal play has a string-key at most its own. -/
theorem c8_fallback_plays_lex_greatest (s : GameState)
    (h1 : s.awaiting_declare ≠ some s.current_player)
    (h2 : ¬((hand_of s s.current_player).any (fun c =>
        decide (c.rank = Rank.seven) && decide (c.suit = s.cut_suit)) = true
        ∧ hand_points (hand_of s s.current_player) ≤ 25))
    (h3 : legal_plays s s.current_player ≠ [])
    (h4 : s.pending_draw = 0
          ∨ (legal_plays s s.current_player).filter (fun c => decide (c.rank = Rank.two)) = [])
    (h5 : find_special s (legal_plays s s.current_player)
        [Rank.two, Rank.eight, Rank.jack, Rank.ace] = none) :
    ∃ c, cpu_choose_action s = .ok (play_act c)
      ∧ c ∈ legal_plays s s.current_player
      ∧ ∀ d ∈ legal_plays s s.current_player, cpu_key_le d c := by
  have hfall : cpu_choose_action s
      = cpu_specials_or_fallback s (legal_plays s s.current_player) := by
    unfold cpu_choose_action
    rw [if_neg h1, if_neg h2, if_neg h3]
    cases hf : (legal_plays s s.current_player).filter (fun c => decide (c.rank = Rank.two)) with
    | nil => rfl
    | cons t ts =>
      rcases h4 with h4 | h4
      · simp [h4]
      · rw [h4] at hf; cases hf
  have hsne : List.insertionSort cpu_key_le (legal_plays s s.current_player) ≠ [] := by
    intro he
    apply h3
    have := List.perm_insertionSort cpu_key_le (legal_plays s s.current_player)
    rw [he] at this
    exact this.symm.eq_nil
  obtain ⟨c, hc⟩ : ∃ c,
      (List.insertionSort cpu_key_le (legal_plays s s.current_player)).getLast? = some c :=
    ⟨_, List.getLast?_eq_getLast_of_ne_nil hsne⟩
  refine ⟨c, ?_, ?_, ?_⟩
  · rw [hfall]
    unfold cpu_specials_or_fallback
    simp only [h5]
    unfold cpu_fallback
    simp only [hc]
    rfl
  · have : c ∈ List.insertionSort cpu_key_le (legal_plays s s.current_player) := by
      obtain ⟨hne, rfl⟩ := List.mem_getLast?_eq_getLast hc
      exact List.getLast_mem hne
    exact (List.mem_insertionSort cpu_key_le).mp this
  · intro d hd
    haveI : IsTotal Card cpu_key_le := ⟨cpu_key_le_total⟩
    haveI : IsTrans Card cpu_key_le := ⟨cpu_key_le_trans⟩
    exact sorted_getLast?_greatest _ c
      (List.sorted_insertionSort cpu_key_le (legal_plays s s.current_player)) hc d
      ((List.mem_insertionSort cpu_key_le).mpr hd)

/-- C8 witness at `c8_state` ({King, Queen} of spades legal, fallback
reached): the result is a maximal-string-key legal play. -/
theorem c8_witness :
    ∃ c, cpu_choose_action c8_state = .ok (play_act c)
      ∧ c ∈ legal_plays c8_state c8_state.current_player
      ∧ ∀ d ∈ legal_plays c8_state c8_state.current_player, cpu_key_le d c :=
  c8_fallback_plays_lex_greatest c8_state (by decide) (by decide) (by decide)
    (Or.inl (by decide)) (by decide)

theorem other_player_zero : other_player 0 = 1 := rfl

theorem other_player_one : other_player 1 = 0 := rfl

/-- Removing the first occurrence of a present element is, up to order,
removing one copy of it. -/
theorem list_remove_perm (l : List Card) (c : Card) (hm : c ∈ l) :
    List.Perm (c :: list_remove l c) l := by
  induction l with
  | nil => cases hm
  | cons x xs ih =>
    by_cases hx : x = c
    · subst hx
      simp only [list_remove, if_pos rfl]
      exact List.Perm.refl _
    · have hc : c ∈ xs := by
        rcases List.mem_cons.mp hm with h1 | h1
        · exact absurd h1.symm hx
        · exact h1
      simp only [list_remove, if_neg hx]
      exact (List.Perm.swap x c _).trans ((ih hc).cons x)

/-- Multiset form of `list_remove_perm`. -/
theorem list_remove_coe (l : List Card) (c : Card) (hm : c ∈ l) :
    (l : Multiset Card) = c ::ₘ (list_remove l c : List Card) :=
  (Multiset.coe_eq_coe.mpr (list_remove_perm l c hm)).symm

/-- The empty-hand win check only touches the `winner` field, so the cards
in play are untouched. -/
theorem in_play_win_check (s : GameState) (hand1 : List Card) (card : Card) :
    in_play (win_check s hand1 card) = in_play s := by
  unfold win_check
  split <;> rfl

/-- `in_play` as a multiset, with the two hands grouped. -/
theorem in_play_coe (s : GameState) :
    (in_play s : Multiset Card)
      = (s.stock : Multiset Card) + (s.discard : Multiset Card)
        + ((hand_of s 0 : Multiset Card) + (hand_of s 1 : Multiset Card)) := by
  simp only [in_play, ← Multiset.coe_add, List.append_assoc]
  exact (add_assoc _ _ _).symm

/-- Writing one player's hand leaves, in total, the new hand plus the other
player's old hand. -/
theorem hands_sum_set_player (ps : PlayerState × PlayerState) (i : Fin 2)
    (h' : List Card) :
    ((player_at (set_player ps i ⟨h'⟩) 0).hand : Multiset Card)
      + ((player_at (set_player ps i ⟨h'⟩) 1).hand : Multiset Card)
    = (h' : Multiset Card) + ((player_at ps (other_player i)).hand : Multiset Card) := by
  fin_cases i <;>
    simp [player_at, set_player, other_player_zero, other_player_one, add_comm]

/-- The two hands' total, split at an arbitrary player index. -/
theorem hands_sum_split (ps : PlayerState × PlayerState) (i : Fin 2) :
    ((player_at ps 0).hand : Multiset Card) + ((player_at ps 1).hand : Multiset Card)
    = ((player_at ps i).hand : Multiset Card)
      + ((player_at ps (other_player i)).hand : Multiset Card) := by
  fin_cases i <;> simp [other_player_zero, other_player_one, add_comm]

/-- A successful reshuffle step conserves the cards in stock plus discard
(the global shuffle permutes what it is given). -/
theorem reshuffle_step_coe (g : List Card → List Card) (hg : shuffler g)
    (stock discard s1 d1 : List Card)
    (h : reshuffle_step g stock discard = .ok (s1, d1)) :
    (s1 : Multiset Card) + (d1 : Multiset Card)
      = (stock : Multiset Card) + (discard : Multiset Card) := by
  unfold reshuffle_step at h
  split at h
  · rename_i hst
    cases hl : discard.getLast? with
    | none => rw [hl] at h; cases h
    | some top =>
      rw [hl] at h
      injection h with h
      rw [Prod.mk.injEq] at h
      obtain ⟨h1, h2⟩ := h
      subst h1
      subst h2
      have hne : discard ≠ [] := by
        intro he
        rw [he] at hl
        cases hl
      have htop : discard.getLast hne = top := by
        have h3 := List.getLast?_eq_getLast_of_ne_nil (l := discard) hne
        rw [hl] at h3
        injection h3 with h3
        exact h3.symm
      have hdl : discard.dropLast ++ [top] = discard := by
        rw [← htop]
        exact List.dropLast_append_getLast hne
      rw [List.isEmpty_iff] at hst
      subst hst
      calc (↑(g discard.dropLast) : Multiset Card) + ↑[top]
          = (↑discard.dropLast : Multiset Card) + ↑[top] := by
            rw [Multiset.coe_eq_coe.mpr (hg discard.dropLast)]
        _ = (↑(discard.dropLast ++ [top]) : Multiset Card) := Multiset.coe_add _ _
        _ = (↑([] : List Card) : Multiset Card) + ↑discard := by
            rw [hdl]
            simp
  · injection h with h
    rw [Prod.mk.injEq] at h
    obtain ⟨h1, h2⟩ := h
    subst h1
    subst h2
    rfl

/-- The draw loop conserves stock plus discard plus drawn cards. -/
theorem draw_loop_coe (g : List Card → List Card) (hg : shuffler g) :
    ∀ (n : Nat) (stock discard drawn stock1 discard1 drawn1 : List Card),
      draw_loop g n stock discard drawn = .ok (stock1, discard1, drawn1) →
      (stock1 : Multiset Card) + (discard1 : Multiset Card) + (drawn1 : Multiset Card)
        = (stock : Multiset Card) + (discard : Multiset Card) + (drawn : Multiset Card) := by
  intro n
  induction n with
  | zero =>
    intro stock discard drawn stock1 discard1 drawn1 h
    simp only [draw_loop, Except.ok.injEq, Prod.mk.injEq] at h
    obtain ⟨rfl, rfl, rfl⟩ := h
    rfl
  | succ n ih =>
    intro stock discard drawn stock1 discard1 drawn1 h
    simp only [draw_loop] at h
    cases hr : reshuffle_step g stock discard with
    | error e => rw [hr] at h; cases h
    | ok sd =>
      obtain ⟨s1, d1⟩ := sd
      rw [hr] at h
      have hrs := reshuffle_step_coe g hg stock discard s1 d1 hr
      cases s1 with
      | nil =>
        simp only [Except.ok.injEq, Prod.mk.injEq] at h
        obtain ⟨rfl, rfl, rfl⟩ := h
        rw [← hrs]
      | cons c rest =>
        have hrec := ih rest d1 (drawn ++ [c]) stock1 discard1 drawn1 h
        rw [hrec, ← hrs]
        simp only [← Multiset.coe_add, ← Multiset.cons_coe, ← Multiset.singleton_add,
          Multiset.coe_nil]
        abel

/-- Rearrangement helper: moving a conserved triple out of a sum. -/
theorem add_shuffle_helper {α : Type} (a b c d e f q : Multiset α)
    (h : a + b + c = d + e) :
    a + b + (f + c + q) = d + e + (f + q) := by
  calc a + b + (f + c + q) = a + b + c + (f + q) := by abel
    _ = d + e + (f + q) := by rw [h]

/-- Every successful `apply_action` conserves the multiset of cards in play
(assuming the global random module permutes what it shuffles). -/
theorem apply_action_in_play_coe (g : List Card → List Card) (hg : shuffler g)
    (s s' : GameState) (a : Action) (h : apply_action g s a = .ok s') :
    (in_play s' : Multiset Card) = (in_play s : Multiset Card) := by
  unfold apply_action at h
  split at h
  · injection h with h
    subst h
    rfl
  · obtain ⟨t, oc, ds⟩ := a
    cases t with
    | PLAY =>
      dsimp only at h
      cases oc with
      | none => cases h
      | some card =>
        dsimp only at h
        by_cases hmem : card ∈ hand_of s s.current_player
        · rw [if_pos hmem] at h
          repeat' split at h
          all_goals
            injection h with h
            subst h
            try simp only [in_play_win_check]
            rw [in_play_coe, in_play_coe]
            dsimp only [hand_of]
            rw [hands_sum_set_player, hands_sum_split s.players s.current_player,
              list_remove_coe _ card
                (show card ∈ (player_at s.players s.current_player).hand from hmem)]
            simp only [← Multiset.coe_add, ← Multiset.cons_coe, ← Multiset.singleton_add,
              Multiset.coe_nil]
            abel
        · rw [if_neg hmem] at h
          cases h
    | DRAW =>
      dsimp only at h
      split at h
      case isTrue => cases h
      case isFalse =>
        cases hdl : draw_loop g (if s.pending_draw > 0 then s.pending_draw else 1)
            s.stock s.discard [] with
        | error e => rw [hdl] at h; cases h
        | ok trip =>
          obtain ⟨stock1, discard1, drawn⟩ := trip
          rw [hdl] at h
          injection h with h
          subst h
          have hdc := draw_loop_coe g hg _ s.stock s.discard [] stock1 discard1 drawn hdl
          simp only [Multiset.coe_nil, add_zero] at hdc
          rw [in_play_coe, in_play_coe]
          dsimp only [hand_of]
          rw [hands_sum_set_player, hands_sum_split s.players s.current_player]
          simp only [← Multiset.coe_add]
          exact add_shuffle_helper _ _ _ _ _ _ _ hdc
    | PASS =>
      dsimp only at h
      split at h
      case isTrue => cases h
      case isFalse =>
        injection h with h
        subst h
        rfl
    | CUT =>
      dsimp only at h
      split at h
      case isTrue => cases h
      case isFalse =>
        cases hfind : (hand_of s s.current_player).find?
            (fun c => decide (c.rank = Rank.seven) && decide (c.suit = s.cut_suit)) with
        | none => rw [hfind] at h; cases h
        | some cut_card =>
          rw [hfind] at h
          dsimp only at h
          split at h
          case isTrue => cases h
          case isFalse =>
            injection h with h
            subst h
            have hmem := List.mem_of_find?_eq_some hfind
            rw [in_play_coe, in_play_coe]
            dsimp only [hand_of]
            rw [hands_sum_set_player, hands_sum_split s.players s.current_player,
              list_remove_coe _ cut_card
                (show cut_card ∈ (player_at s.players s.current_player).hand from hmem)]
            simp only [← Multiset.coe_add, ← Multiset.cons_coe, ← Multiset.singleton_add,
              Multiset.coe_nil]
            abel

theorem player_at_zero (ps : PlayerState × PlayerState) : player_at ps 0 = ps.1 := rfl

theorem player_at_one (ps : PlayerState × PlayerState) : player_at ps 1 = ps.2 := rfl

/-- The dealing loop conserves the deck and deals `n` cards to each hand. -/
theorem deal_hands_spec : ∀ (n : Nat) (deck h0 h1 st : List Card),
    deal_hands n deck = .ok (h0, h1, st) →
    ((h0 : Multiset Card) + (h1 : Multiset Card) + (st : Multiset Card)
        = (deck : Multiset Card))
    ∧ h0.length = n ∧ h1.length = n := by
  intro n
  induction n with
  | zero =>
    intro deck h0 h1 st h
    simp only [deal_hands, Except.ok.injEq, Prod.mk.injEq] at h
    obtain ⟨rfl, rfl, rfl⟩ := h
    refine ⟨by simp, rfl, rfl⟩
  | succ n ih =>
    intro deck h0 h1 st h
    cases deck with
    | nil => simp [deal_hands] at h
    | cons a tl =>
      cases tl with
      | nil => simp [deal_hands] at h
      | cons b rest =>
        simp only [deal_hands] at h
        cases hrec : deal_hands n rest with
        | error e => rw [hrec] at h; cases h
        | ok trip =>
          obtain ⟨h0x, h1x, stx⟩ := trip
          rw [hrec] at h
          simp only [Except.ok.injEq, Prod.mk.injEq] at h
          obtain ⟨rfl, rfl, rfl⟩ := h
          obtain ⟨hcoe, hl0, hl1⟩ := ih rest h0x h1x stx hrec
          refine ⟨?_, by simp [hl0], by simp [hl1]⟩
          simp only [← Multiset.cons_coe, ← Multiset.singleton_add]
          rw [← hcoe]
          abel

/-- Conservation at deal time: 7 cards in each hand, 1 in discard, 36 in
stock, all 51 in-play cards distinct, and the burned cut-reveal card is
nowhere in play. -/
theorem deal_new_game_conservation (ds : List Card → List Card) (s : GameState)
    (hds : shuffler ds) (h : deal_new_game ds = .ok s) :
    (hand_of s 0).length = 7 ∧ (hand_of s 1).length = 7 ∧ s.discard.length = 1
    ∧ s.stock.length = 36 ∧ (in_play s).length = 51 ∧ (in_play s).Nodup
    ∧ ∀ burned rest2, ds generate_deck = burned :: rest2 → burned ∉ in_play s := by
  unfold deal_new_game at h
  cases hdeck : ds generate_deck with
  | nil => rw [hdeck] at h; cases h
  | cons cutc tl =>
    cases tl with
    | nil =>
      rw [hdeck] at h
      dsimp only at h
      cases h
    | cons fd rest =>
      rw [hdeck] at h
      dsimp only at h
      cases hdh : deal_hands 7 rest with
      | error e => rw [hdh] at h; cases h
      | ok trip =>
        obtain ⟨h0, h1, st⟩ := trip
        rw [hdh] at h
        dsimp only at h
        injection h with h
        obtain ⟨hcoe, hl0, hl1⟩ := deal_hands_spec 7 rest h0 h1 st hdh
        have hperm : List.Perm (ds generate_deck) generate_deck := hds _
        have hlen52 : (ds generate_deck).length = 52 := by
          rw [hperm.length_eq]
          decide
        have hnd : (ds generate_deck).Nodup :=
          hperm.nodup_iff.mpr (by decide)
        rw [hdeck] at hlen52 hnd
        have hrest : rest.length = 50 := by
          simp only [List.length_cons] at hlen52
          omega
        have hlensum : h0.length + (h1.length + st.length) = rest.length := by
          have hc := congrArg Multiset.card hcoe
          simpa using hc
        have hst : st.length = 36 := by omega
        have hip : (in_play s : Multiset Card)
            = ((fd :: rest : List Card) : Multiset Card) := by
          rw [← h, in_play_coe]
          dsimp only [hand_of]
          simp only [player_at_zero, player_at_one]
          simp only [← Multiset.cons_coe, ← Multiset.singleton_add]
          rw [← hcoe]
          abel
        have hipp := Multiset.coe_eq_coe.mp hip
        have hndtail : (fd :: rest).Nodup := (List.nodup_cons.mp hnd).2
        have hcut : cutc ∉ fd :: rest := (List.nodup_cons.mp hnd).1
        refine ⟨by rw [← h]; simpa [hand_of, player_at_zero] using hl0,
          by rw [← h]; simpa [hand_of, player_at_one] using hl1,
          by rw [← h]; rfl, by rw [← h]; exact hst, ?_, ?_, ?_⟩
        · rw [hipp.length_eq]
          simp [hrest]
        · exact hipp.nodup_iff.mpr hndtail
        · intro burned rest2 heq
          injection heq with he1 he2
          subst he1
          intro hmemip
          exact hcut (hipp.mem_iff.mp hmemip)

/-- C4.  First conjunct: immediately after a deal (with any honest shuffle),
each hand has 7 cards, the discard 1, the stock 36, the 51 in-play cards are
pairwise distinct, and the burned cut-reveal card (the head of the shuffled
deck) appears nowhere in play.  Second conjunct: in every state reachable
from a fresh deal by legal, successfully applied actions,
|stock| + |discard| + |hand0| + |hand1| = 51 and the 51 cards are pairwise
distinct. -/
theorem c4_conservation :
    (∀ (ds : List Card → List Card) (s : GameState), shuffler ds →
        deal_new_game ds = .ok s →
        (hand_of s 0).length = 7 ∧ (hand_of s 1).length = 7
        ∧ s.discard.length = 1 ∧ s.stock.length = 36
        ∧ (in_play s).length = 51 ∧ (in_play s).Nodup
        ∧ ∀ burned rest2, ds generate_deck = burned :: rest2 → burned ∉ in_play s)
    ∧ (∀ s : GameState, Reachable s → (in_play s).length = 51 ∧ (in_play s).Nodup) := by
  constructor
  · intro ds s hds h
    exact deal_new_game_conservation ds s hds h
  · intro s hr
    induction hr with
    | deal ds s hds hdeal =>
      obtain ⟨-, -, -, -, hlen, hnd, -⟩ := deal_new_game_conservation ds s hds hdeal
      exact ⟨hlen, hnd⟩
    | step g s s' a hg hr hok happly ih =>
      have hp := Multiset.coe_eq_coe.mp (apply_action_in_play_coe g hg s s' a happly)
      exact ⟨hp.length_eq.trans ih.1, hp.nodup_iff.mpr ih.2⟩

/-- C4 witness: the identity shuffle is an honest shuffle; the dealt state
has 7-card hands and 51 distinct cards in play, and it is reachable. -/
theorem c4_witness :
    (hand_of deal_id_state 0).length = 7 ∧ deal_id_state.stock.length = 36
    ∧ (in_play deal_id_state).length = 51 ∧ (in_play deal_id_state).Nodup := by
  have h1 := c4_conservation.1 id deal_id_state (fun l => List.Perm.refl l) (by rfl)
  have h2 := c4_conservation.2 deal_id_state
    (Reachable.deal id deal_id_state (fun l => List.Perm.refl l) (by rfl))
  exact ⟨h1.1, h1.2.2.2.1, h2.1, h2.2⟩

end Matatu
